import Mathlib

/-!
Verification of the NIM (student number) allocation subsystem of the
PMB admission backend.

The Lean definitions below are shallow embeddings of the Python source:
  - `generate_nim`       from `src/utils.py` (counter-row allocator);
  - `approve_mahasiswa`  from `src/main.py` (HTTP approval handler);
  - `approve`            from `src/cli_register.py` (CLI approval command);
  - `NIMCounter`, candidate fields from `src/models.py`.
Strings are modelled at the `List Char` level; Python decimal formatting
(`f-strings` with `:04d`) is modelled by `decRepr`/`pad4` below.
-/

namespace PMB

/-- Python `str.isspace`-style check for the characters `str.strip()`
removes (ASCII whitespace as relevant to this code base). -/
def pyIsSpace (c : Char) : Bool :=
  c = ' ' || c = '\t' || c = '\n' || c = '\x0d' || c = '\x0b' || c = '\x0c'

/-- Python `str.strip()`: drop leading and trailing whitespace. -/
def pyStrip (s : String) : String :=
  ⟨((s.data.dropWhile pyIsSpace).reverse.dropWhile pyIsSpace).reverse⟩

/-- Python `str.upper()` on one ASCII character. -/
def pyUpperChar (c : Char) : Char :=
  if 'a' ≤ c ∧ c ≤ 'z' then Char.ofNat (c.toNat - 32) else c

/-- Python `str.upper()` (ASCII). -/
def pyUpper (s : String) : String :=
  ⟨s.data.map pyUpperChar⟩

/-- Little-endian decimal digits of `n` as characters, with explicit
fuel (`n` itself is always enough fuel since `n / 10 < n` for `n > 0`). -/
def decAux : Nat → Nat → List Char
  | 0, _ => []
  | _ + 1, 0 => []
  | fuel + 1, n + 1 =>
    Char.ofNat (48 + (n + 1) % 10) :: decAux fuel ((n + 1) / 10)

/-- Decimal representation of a natural number, as Python `str(n)` /
`f"{n}"` produces it. -/
def decRepr (n : Nat) : String :=
  if n = 0 then "0" else ⟨(decAux n n).reverse⟩

/-- Python `f"{n:04d}"` for `n ≥ 0`: pad with `'0'` on the left to a
minimum width of 4; wider numbers are emitted in full. -/
def pad4 (n : Nat) : String :=
  ⟨List.replicate (4 - (decRepr n).length) '0'⟩ ++ decRepr n

/-- Bool-valued prefix test on character lists (the semantics of a SQL
`LIKE 'pat%'` filter used by the approval handlers). -/
def startsWithList : List Char → List Char → Bool
  | [], _ => true
  | _ :: _, [] => false
  | a :: as, b :: bs => a == b && startsWithList as bs

/-- `likeMatch pat s` models `s LIKE (pat ++ "%")`. -/
def likeMatch (pat s : String) : Bool :=
  startsWithList pat.data s.data

/-! ### Properties of the decimal formatter -/

lemma decAux_zero (fuel : Nat) : decAux fuel 0 = [] := by
  cases fuel <;> rfl

lemma decAux_fuel_irrel : ∀ fuel₁ : Nat, ∀ fuel₂ n : Nat, n ≤ fuel₁ → n ≤ fuel₂ →
    decAux fuel₁ n = decAux fuel₂ n := by
  intro fuel₁
  induction fuel₁ with
  | zero =>
    intro fuel₂ n h₁ _
    have : n = 0 := Nat.le_zero.mp h₁
    subst this
    exact (decAux_zero fuel₂).symm
  | succ f ih =>
    intro fuel₂ n h₁ h₂
    cases n with
    | zero => rw [decAux_zero, decAux_zero]
    | succ m =>
      cases fuel₂ with
      | zero => omega
      | succ f₂ =>
        show Char.ofNat (48 + (m + 1) % 10) :: decAux f ((m + 1) / 10) =
             Char.ofNat (48 + (m + 1) % 10) :: decAux f₂ ((m + 1) / 10)
        have hd : (m + 1) / 10 < m + 1 := Nat.div_lt_self (Nat.succ_pos m) (by omega)
        rw [ih f₂ ((m + 1) / 10) (by omega) (by omega)]

lemma decAux_eq_nil_iff : ∀ fuel n : Nat, n ≤ fuel → (decAux fuel n = [] ↔ n = 0) := by
  intro fuel n h
  constructor
  · intro hnil
    cases n with
    | zero => rfl
    | succ m =>
      cases fuel with
      | zero => omega
      | succ f => exact absurd hnil (by simp [decAux])
  · intro h0; subst h0; exact decAux_zero fuel

lemma decAux_length_le : ∀ fuel k n : Nat, n ≤ fuel → n < 10 ^ k →
    (decAux fuel n).length ≤ k := by
  intro fuel
  induction fuel with
  | zero =>
    intro k n h₁ _
    have : n = 0 := Nat.le_zero.mp h₁
    subst this
    simp [decAux_zero]
  | succ f ih =>
    intro k n h₁ h₂
    cases n with
    | zero => simp [decAux_zero]
    | succ m =>
      cases k with
      | zero => omega
      | succ k' =>
        show (Char.ofNat (48 + (m + 1) % 10) :: decAux f ((m + 1) / 10)).length ≤ k' + 1
        simp only [List.length_cons, Nat.add_le_add_iff_right]
        apply ih
        · have : (m + 1) / 10 < m + 1 := Nat.div_lt_self (Nat.succ_pos m) (by omega)
          omega
        · have : (m + 1) / 10 < 10 ^ k' := by
            rw [Nat.div_lt_iff_lt_mul (by omega)]
            calc m + 1 < 10 ^ (k' + 1) := h₂
              _ = 10 ^ k' * 10 := by ring
          exact this

lemma decAux_length_gt : ∀ fuel k n : Nat, n ≤ fuel → 10 ^ k ≤ n →
    k < (decAux fuel n).length := by
  intro fuel
  induction fuel with
  | zero =>
    intro k n h₁ h₂
    have : n = 0 := Nat.le_zero.mp h₁
    subst this
    have : 0 < 10 ^ k := Nat.pos_pow_of_pos k (by omega)
    omega
  | succ f ih =>
    intro k n h₁ h₂
    cases n with
    | zero =>
      have : 0 < 10 ^ k := Nat.pos_pow_of_pos k (by omega)
      omega
    | succ m =>
      show k < (Char.ofNat (48 + (m + 1) % 10) :: decAux f ((m + 1) / 10)).length
      simp only [List.length_cons]
      cases k with
      | zero => omega
      | succ k' =>
        have hlt : k' < (decAux f ((m + 1) / 10)).length := by
          apply ih
          · have : (m + 1) / 10 < m + 1 := Nat.div_lt_self (Nat.succ_pos m) (by omega)
            omega
          · rw [Nat.le_div_iff_mul_le (by omega)]
            calc 10 ^ k' * 10 = 10 ^ (k' + 1) := by ring
              _ ≤ m + 1 := h₂
        omega

lemma digitChar_inj : ∀ a < 10, ∀ b < 10,
    Char.ofNat (48 + a) = Char.ofNat (48 + b) → a = b := by decide

lemma decAux_inj : ∀ fuel₁ : Nat, ∀ fuel₂ m n : Nat, m ≤ fuel₁ → n ≤ fuel₂ →
    decAux fuel₁ m = decAux fuel₂ n → m = n := by
  intro fuel₁
  induction fuel₁ with
  | zero =>
    intro fuel₂ m n h₁ h₂ heq
    have hm : m = 0 := Nat.le_zero.mp h₁
    subst hm
    rw [decAux_zero] at heq
    exact ((decAux_eq_nil_iff fuel₂ n h₂).mp heq.symm).symm
  | succ f ih =>
    intro fuel₂ m n h₁ h₂ heq
    cases m with
    | zero =>
      rw [decAux_zero] at heq
      exact ((decAux_eq_nil_iff fuel₂ n h₂).mp heq.symm).symm
    | succ m' =>
      cases n with
      | zero =>
        rw [decAux_zero] at heq
        exact absurd ((decAux_eq_nil_iff (f + 1) (m' + 1) h₁).mp heq) (by omega)
      | succ n' =>
        cases fuel₂ with
        | zero => omega
        | succ f₂ =>
          have heq' : Char.ofNat (48 + (m' + 1) % 10) :: decAux f ((m' + 1) / 10) =
              Char.ofNat (48 + (n' + 1) % 10) :: decAux f₂ ((n' + 1) / 10) := heq
          rw [List.cons.injEq] at heq'
          have hmod : (m' + 1) % 10 = (n' + 1) % 10 :=
            digitChar_inj _ (Nat.mod_lt _ (by omega)) _ (Nat.mod_lt _ (by omega)) heq'.1
          have hdm : (m' + 1) / 10 < m' + 1 := Nat.div_lt_self (Nat.succ_pos m') (by omega)
          have hdn : (n' + 1) / 10 < n' + 1 := Nat.div_lt_self (Nat.succ_pos n') (by omega)
          have hdiv : (m' + 1) / 10 = (n' + 1) / 10 :=
            ih f₂ ((m' + 1) / 10) ((n' + 1) / 10) (by omega) (by omega) heq'.2
          have h₁ := Nat.div_add_mod (m' + 1) 10
          have h₂ := Nat.div_add_mod (n' + 1) 10
          omega

lemma decAux_reverse_head : ∀ fuel n : Nat, 0 < n → n ≤ fuel →
    ∃ c t, (decAux fuel n).reverse = c :: t ∧ c ≠ '0' := by
  intro fuel
  induction fuel with
  | zero => intro n h₁ h₂; omega
  | succ f ih =>
    intro n h₁ h₂
    cases n with
    | zero => omega
    | succ m =>
      show ∃ c t, (Char.ofNat (48 + (m + 1) % 10) :: decAux f ((m + 1) / 10)).reverse
          = c :: t ∧ c ≠ '0'
      rw [List.reverse_cons]
      by_cases hsmall : m + 1 < 10
      · have hdiv : (m + 1) / 10 = 0 := Nat.div_eq_of_lt hsmall
        rw [hdiv, decAux_zero]
        refine ⟨Char.ofNat (48 + (m + 1) % 10), [], by simp, ?_⟩
        have hmod : (m + 1) % 10 = m + 1 := Nat.mod_eq_of_lt hsmall
        rw [hmod]
        have hm9 : m < 9 := by omega
        interval_cases m <;> decide
      · have hd1 : 0 < (m + 1) / 10 := (Nat.one_le_div_iff (by omega)).mpr (by omega)
        have hd2 : (m + 1) / 10 ≤ f := by
          have : (m + 1) / 10 < m + 1 := Nat.div_lt_self (Nat.succ_pos m) (by omega)
          omega
        obtain ⟨c, t, hct, hc⟩ := ih ((m + 1) / 10) hd1 hd2
        exact ⟨c, t ++ [Char.ofNat (48 + (m + 1) % 10)], by rw [hct]; simp, hc⟩

lemma decRepr_inj : ∀ m n : Nat, decRepr m = decRepr n → m = n := by
  intro m n heq
  have h0 : ("0" : String).data = ['0'] := rfl
  by_cases hm : m = 0
  · by_cases hn : n = 0
    · omega
    · exfalso
      subst hm
      rw [decRepr, if_pos rfl, decRepr, if_neg hn] at heq
      obtain ⟨c, t, hct, hc⟩ := decAux_reverse_head n n (by omega) le_rfl
      have hdata : ("0" : String).data = (decAux n n).reverse := congrArg String.data heq
      rw [h0, hct] at hdata
      simp only [List.cons.injEq] at hdata
      exact hc hdata.1.symm
  · by_cases hn : n = 0
    · exfalso
      subst hn
      rw [decRepr, if_neg hm, decRepr, if_pos rfl] at heq
      obtain ⟨c, t, hct, hc⟩ := decAux_reverse_head m m (by omega) le_rfl
      have hdata : (decAux m m).reverse = ("0" : String).data := congrArg String.data heq
      rw [h0, hct] at hdata
      simp only [List.cons.injEq] at hdata
      exact hc hdata.1
    · rw [decRepr, if_neg hm, decRepr, if_neg hn] at heq
      have hdata : (decAux m m).reverse = (decAux n n).reverse := congrArg String.data heq
      exact decAux_inj m n m n le_rfl le_rfl (List.reverse_injective hdata)

lemma decRepr_length_le (k n : Nat) (hk : 0 < k) (h : n < 10 ^ k) :
    (decRepr n).length ≤ k := by
  by_cases hn : n = 0
  · subst hn
    have h1 : (decRepr 0).length = 1 := rfl
    omega
  · rw [decRepr, if_neg hn]
    show (decAux n n).reverse.length ≤ k
    rw [List.length_reverse]
    exact decAux_length_le n k n le_rfl h

lemma decRepr_length_gt (k n : Nat) (h : 10 ^ k ≤ n) : k < (decRepr n).length := by
  by_cases hn : n = 0
  · exfalso
    have hp : 0 < 10 ^ k := Nat.pos_pow_of_pos k (by omega)
    omega
  · rw [decRepr, if_neg hn]
    show k < (decAux n n).reverse.length
    rw [List.length_reverse]
    exact decAux_length_gt n k n le_rfl h

lemma mk_append (l : List Char) (s : String) : (⟨l⟩ : String) ++ s = ⟨l ++ s.data⟩ := by
  cases s
  rfl

lemma pad4_data (n : Nat) :
    (pad4 n).data = List.replicate (4 - (decRepr n).length) '0' ++ (decRepr n).data := by
  rw [pad4, mk_append]

lemma decRepr_head (n : Nat) (hn : 0 < n) :
    ∃ c t, (decRepr n).data = c :: t ∧ c ≠ '0' := by
  obtain ⟨c, t, hct, hc⟩ := decAux_reverse_head n n hn le_rfl
  refine ⟨c, t, ?_, hc⟩
  rw [decRepr, if_neg (by omega)]
  exact hct

lemma pad4_big (n : Nat) (h : 9999 < n) : pad4 n = decRepr n := by
  have hlen : 4 < (decRepr n).length := decRepr_length_gt 4 n (by omega)
  have h40 : 4 - (decRepr n).length = 0 := by omega
  rw [pad4, h40]
  show (⟨[]⟩ : String) ++ decRepr n = decRepr n
  rw [mk_append]
  cases hd : decRepr n
  simp

lemma dropWhile_replicate_zero (k : Nat) (l : List Char) :
    List.dropWhile (fun c => c == '0') (List.replicate k '0' ++ l) =
    List.dropWhile (fun c => c == '0') l := by
  induction k with
  | zero => simp
  | succ k' ih => simp [List.replicate_succ, List.dropWhile, ih]

lemma dropWhile_decRepr (n : Nat) (hn : 0 < n) :
    List.dropWhile (fun c => c == '0') (decRepr n).data = (decRepr n).data := by
  obtain ⟨c, t, hct, hc⟩ := decRepr_head n hn
  rw [hct, List.dropWhile]
  have hcf : (c == '0') = false := by simp [hc]
  rw [hcf]

lemma pad4_inj (a b : Nat) (h : pad4 a = pad4 b) : a = b := by
  have hdata := congrArg String.data h
  rw [pad4_data, pad4_data] at hdata
  have hdw := congrArg (List.dropWhile (fun c => c == '0')) hdata
  rw [dropWhile_replicate_zero, dropWhile_replicate_zero] at hdw
  by_cases ha : a = 0
  · by_cases hb : b = 0
    · omega
    · exfalso
      subst ha
      rw [dropWhile_decRepr b (by omega)] at hdw
      obtain ⟨c, t, hct, _⟩ := decRepr_head b (by omega)
      have h00 : (decRepr 0).data = ['0'] := rfl
      rw [h00, hct] at hdw
      simp [List.dropWhile] at hdw
  · by_cases hb : b = 0
    · exfalso
      subst hb
      rw [dropWhile_decRepr a (by omega)] at hdw
      obtain ⟨c, t, hct, _⟩ := decRepr_head a (by omega)
      have h00 : (decRepr 0).data = ['0'] := rfl
      rw [h00, hct] at hdw
      simp [List.dropWhile] at hdw
    · rw [dropWhile_decRepr a (by omega), dropWhile_decRepr b (by omega)] at hdw
      exact decRepr_inj a b (String.ext hdw)

lemma pad4_length (n : Nat) (h : n ≤ 9999) : (pad4 n).length = 4 := by
  have hle : (decRepr n).length ≤ 4 := decRepr_length_le 4 n (by omega) (by omega)
  show (pad4 n).data.length = 4
  rw [pad4_data, List.length_append, List.length_replicate]
  have : (decRepr n).length = (decRepr n).data.length := rfl
  omega

lemma pad4_length_ge (n : Nat) : 4 ≤ (pad4 n).length := by
  show 4 ≤ (pad4 n).data.length
  rw [pad4_data, List.length_append, List.length_replicate]
  have : (decRepr n).length = (decRepr n).data.length := rfl
  omega

/-! ### Counter store: `NIMCounter` (src/models.py) and `generate_nim` (src/utils.py) -/

/-- One row of the `nim_counters` table (`NIMCounter` in `src/models.py`).
The table carries `UniqueConstraint('year', 'kode_prodi')`; `last_seq`
is the highest sequence issued for the key. -/
structure NIMCounter where
  year : Int
  kode_prodi : String
  last_seq : Nat
deriving Repr, DecidableEq

/-- The `one_or_none` lookup of the counter row for `(tahun, kode)`
(the filtered `with_for_update` query in `generate_nim`). Under the
unique key constraint at most one row matches, so `find?` is exact. -/
def rowFor (db : List NIMCounter) (tahun : Int) (kode : String) : Option NIMCounter :=
  db.find? (fun c => c.year == tahun && c.kode_prodi == kode)

/-- The `counter.last_seq = seq` assignment of `generate_nim`: rewrite the
(unique) row of key `(tahun, kode)` to carry `last_seq = seq`. -/
def updRow (tahun : Int) (kode : String) (seq : Nat) (c0 : NIMCounter) : NIMCounter :=
  if c0.year == tahun && c0.kode_prodi == kode then { c0 with last_seq := seq } else c0

/-- `generate_nim` from `src/utils.py`, embedded over an explicit list of
counter rows. The `with_for_update` row lock makes the read-increment-write
atomic, so the call is modelled as one state transformation; the two
`ValueError`s become `Except.error`. -/
def generate_nim (tahun : Int) (kode_prodi : String) (db : List NIMCounter) :
    Except String (String × List NIMCounter) :=
  let kode := pyUpper (pyStrip kode_prodi)
  if kode = "" then .error "kode_prodi must be a non-empty string"
  else if tahun < 2000 ∨ 9999 < tahun then .error "tahun must be a four-digit year"
  else
    match rowFor db tahun kode with
    | none =>
        .ok (decRepr tahun.toNat ++ kode ++ pad4 1, db ++ [⟨tahun, kode, 1⟩])
    | some c =>
        .ok (decRepr tahun.toNat ++ kode ++ pad4 (c.last_seq + 1),
             db.map (updRow tahun kode (c.last_seq + 1)))

/-- Current sequence value of a key: `last_seq` of its row, 0 when the
row is absent (the lazily-created state). -/
def curSeq (db : List NIMCounter) (tahun : Int) (kode : String) : Nat :=
  match rowFor db tahun kode with
  | none => 0
  | some c => c.last_seq

/-- Keys of the counter table, for the uniqueness invariant. -/
def keysOf (db : List NIMCounter) : List (Int × String) :=
  db.map (fun c => (c.year, c.kode_prodi))

/-- The successor counter state of a successful `generate_nim` call:
lazily create the row at sequence 1, or bump the existing row by one. -/
def nextDb (tahun : Int) (kode : String) (db : List NIMCounter) : List NIMCounter :=
  match rowFor db tahun kode with
  | none => db ++ [⟨tahun, kode, 1⟩]
  | some c => db.map (updRow tahun kode (c.last_seq + 1))

/-! ### Lemmas on the counter state -/

lemma rowFor_cons_pos (c : NIMCounter) (cs : List NIMCounter) (t : Int) (k : String)
    (h : (c.year == t && c.kode_prodi == k) = true) : rowFor (c :: cs) t k = some c :=
  List.find?_cons_of_pos cs h

lemma rowFor_cons_neg (c : NIMCounter) (cs : List NIMCounter) (t : Int) (k : String)
    (h : (c.year == t && c.kode_prodi == k) = false) : rowFor (c :: cs) t k = rowFor cs t k :=
  List.find?_cons_of_neg cs (by simp [h])

lemma rowFor_append_self (db : List NIMCounter) (t : Int) (k : String) (r : NIMCounter)
    (hr : r.year = t) (hk : r.kode_prodi = k) (h : rowFor db t k = none) :
    rowFor (db ++ [r]) t k = some r := by
  induction db with
  | nil =>
    rw [List.nil_append]
    exact rowFor_cons_pos r [] t k (by simp [hr, hk])
  | cons c cs ih =>
    rw [List.cons_append]
    by_cases hpc : (c.year == t && c.kode_prodi == k) = true
    · rw [rowFor_cons_pos c cs t k hpc] at h
      exact absurd h (by simp)
    · have hf := Bool.of_not_eq_true hpc
      rw [rowFor_cons_neg c cs t k hf] at h
      rw [rowFor_cons_neg c (cs ++ [r]) t k hf]
      exact ih h

lemma rowFor_append_other (db : List NIMCounter) (t t' : Int) (k k' : String)
    (r : NIMCounter) (hr : r.year = t) (hk : r.kode_prodi = k)
    (hne : ¬(t' = t ∧ k' = k)) :
    rowFor (db ++ [r]) t' k' = rowFor db t' k' := by
  have hq : (r.year == t' && r.kode_prodi == k') = false := by
    simp only [Bool.and_eq_false_iff, beq_eq_false_iff_ne, ne_eq, hr, hk]
    by_cases h1 : t = t'
    · right; intro h2; exact hne ⟨h1.symm, h2.symm⟩
    · left; intro h2; exact h1 h2
  induction db with
  | nil =>
    rw [List.nil_append]
    rw [rowFor_cons_neg r [] t' k' hq]
  | cons c cs ih =>
    rw [List.cons_append]
    by_cases hpc : (c.year == t' && c.kode_prodi == k') = true
    · rw [rowFor_cons_pos c (cs ++ [r]) t' k' hpc, rowFor_cons_pos c cs t' k' hpc]
    · have hf := Bool.of_not_eq_true hpc
      rw [rowFor_cons_neg c (cs ++ [r]) t' k' hf, rowFor_cons_neg c cs t' k' hf]
      exact ih

lemma updRow_keeps_key (t : Int) (k : String) (s : Nat) (c : NIMCounter) :
    (updRow t k s c).year = c.year ∧ (updRow t k s c).kode_prodi = c.kode_prodi := by
  unfold updRow
  split <;> exact ⟨rfl, rfl⟩

lemma rowFor_map_self (db : List NIMCounter) (t : Int) (k : String) (s : Nat) :
    rowFor (db.map (updRow t k s)) t k =
      (rowFor db t k).map (fun c => { c with last_seq := s }) := by
  induction db with
  | nil => rfl
  | cons c cs ih =>
    rw [List.map_cons]
    by_cases hpc : (c.year == t && c.kode_prodi == k) = true
    · have hyk : c.year = t ∧ c.kode_prodi = k := by
        simpa only [Bool.and_eq_true, beq_iff_eq] using hpc
      have hupd : updRow t k s c = { c with last_seq := s } := by
        unfold updRow
        rw [hpc]
        rfl
      have hpc2 : (({ c with last_seq := s } : NIMCounter).year == t &&
          ({ c with last_seq := s } : NIMCounter).kode_prodi == k) = true := hpc
      rw [hupd, rowFor_cons_pos _ _ t k hpc2, rowFor_cons_pos c cs t k hpc]
      rfl
    · have hf := Bool.of_not_eq_true hpc
      have hupd : updRow t k s c = c := by
        unfold updRow
        rw [hf]
        rfl
      rw [hupd, rowFor_cons_neg c _ t k hf, rowFor_cons_neg c cs t k hf]
      exact ih

lemma rowFor_map_other (db : List NIMCounter) (t t' : Int) (k k' : String) (s : Nat)
    (hne : ¬(t' = t ∧ k' = k)) :
    rowFor (db.map (updRow t k s)) t' k' = rowFor db t' k' := by
  induction db with
  | nil => rfl
  | cons c cs ih =>
    rw [List.map_cons]
    by_cases hpc : (c.year == t && c.kode_prodi == k) = true
    · have hyk : c.year = t ∧ c.kode_prodi = k := by
        simpa only [Bool.and_eq_true, beq_iff_eq] using hpc
      have hq : (c.year == t' && c.kode_prodi == k') = false := by
        simp only [Bool.and_eq_false_iff, beq_eq_false_iff_ne, ne_eq]
        by_cases h1 : c.year = t'
        · right; intro h2; exact hne ⟨h1.symm.trans hyk.1, h2.symm.trans hyk.2⟩
        · left; exact h1
      have hupd : updRow t k s c = { c with last_seq := s } := by
        unfold updRow
        rw [hpc]
        rfl
      have hq2 : (({ c with last_seq := s } : NIMCounter).year == t' &&
          ({ c with last_seq := s } : NIMCounter).kode_prodi == k') = false := hq
      rw [hupd, rowFor_cons_neg _ _ t' k' hq2, rowFor_cons_neg c cs t' k' hq]
      exact ih
    · have hupd : updRow t k s c = c := by
        unfold updRow
        rw [Bool.of_not_eq_true hpc]
        rfl
      rw [hupd]
      by_cases hq : (c.year == t' && c.kode_prodi == k') = true
      · rw [rowFor_cons_pos c _ t' k' hq, rowFor_cons_pos c cs t' k' hq]
      · have hqf := Bool.of_not_eq_true hq
        rw [rowFor_cons_neg c _ t' k' hqf, rowFor_cons_neg c cs t' k' hqf]
        exact ih

lemma keysOf_map_updRow (db : List NIMCounter) (t : Int) (k : String) (s : Nat) :
    keysOf (db.map (updRow t k s)) = keysOf db := by
  unfold keysOf
  rw [List.map_map]
  apply List.map_congr_left
  intro c _
  have := updRow_keeps_key t k s c
  simp only [Function.comp_apply, this.1, this.2]

lemma keysOf_nodup_append (db : List NIMCounter) (t : Int) (k : String)
    (h : rowFor db t k = none) (hnd : (keysOf db).Nodup) :
    (keysOf (db ++ [⟨t, k, 1⟩])).Nodup := by
  unfold keysOf
  rw [List.map_append]
  simp only [List.map_cons, List.map_nil]
  rw [List.nodup_append]
  refine ⟨hnd, List.nodup_singleton _, ?_⟩
  intro p hp hq
  simp only [List.mem_singleton] at hq
  subst hq
  rw [List.mem_map] at hp
  obtain ⟨c, hc, hck⟩ := hp
  rw [rowFor, List.find?_eq_none] at h
  have := h c hc
  simp only [Bool.and_eq_true, beq_iff_eq, not_and] at this
  have h1 : c.year = t := congrArg Prod.fst hck
  have h2 : c.kode_prodi = k := congrArg Prod.snd hck
  exact this h1 h2

/-- Inversion of a successful `generate_nim` call: the inputs were valid,
the returned NIM is year-repr ++ normalized code ++ padded (old seq + 1),
and the new counter state is `nextDb`. -/
lemma generate_nim_ok (t : Int) (kp : String) (db : List NIMCounter)
    (nim : String) (db' : List NIMCounter)
    (h : generate_nim t kp db = .ok (nim, db')) :
    pyUpper (pyStrip kp) ≠ "" ∧ 2000 ≤ t ∧ t ≤ 9999 ∧
    nim = decRepr t.toNat ++ pyUpper (pyStrip kp) ++
      pad4 (curSeq db t (pyUpper (pyStrip kp)) + 1) ∧
    db' = nextDb t (pyUpper (pyStrip kp)) db := by
  by_cases h1 : pyUpper (pyStrip kp) = ""
  · rw [generate_nim] at h
    simp only [h1, if_pos rfl] at h
    exact absurd h (by simp)
  · by_cases h2 : t < 2000 ∨ 9999 < t
    · rw [generate_nim] at h
      simp only [if_neg h1, if_pos h2] at h
      exact absurd h (by simp)
    · refine ⟨h1, by omega, by omega, ?_⟩
      rw [generate_nim] at h
      simp only [if_neg h1, if_neg h2] at h
      unfold curSeq nextDb
      cases hrow : rowFor db t (pyUpper (pyStrip kp)) with
      | none =>
        rw [hrow] at h
        simp only [Except.ok.injEq, Prod.mk.injEq] at h
        exact ⟨h.1.symm, h.2.symm⟩
      | some c =>
        rw [hrow] at h
        simp only [Except.ok.injEq, Prod.mk.injEq] at h
        exact ⟨h.1.symm, h.2.symm⟩

lemma pyUpper_eq_empty_iff (s : String) : pyUpper s = "" ↔ s = "" := by
  constructor
  · intro h
    have hdata : (pyUpper s).data = ("" : String).data := congrArg String.data h
    have hmap : s.data.map pyUpperChar = [] := hdata
    have hnil : s.data = [] := List.map_eq_nil_iff.mp hmap
    exact String.ext hnil
  · intro h
    subst h
    rfl

lemma decRepr_year_length (t : Int) (h1 : 2000 ≤ t) (h2 : t ≤ 9999) :
    (decRepr t.toNat).length = 4 := by
  have ha : 1000 ≤ t.toNat := by omega
  have hb : t.toNat < 10000 := by omega
  have hle : (decRepr t.toNat).length ≤ 4 := by
    apply decRepr_length_le 4 _ (by omega)
    have hp : (10 : Nat) ^ 4 = 10000 := by norm_num
    omega
  have hgt : 3 < (decRepr t.toNat).length := by
    apply decRepr_length_gt 3
    have hp : (10 : Nat) ^ 3 = 1000 := by norm_num
    omega
  omega

lemma generate_nim_error_iff (t : Int) (kp : String) (db : List NIMCounter) :
    (∃ e, generate_nim t kp db = .error e) ↔
      (pyUpper (pyStrip kp) = "" ∨ t < 2000 ∨ 9999 < t) := by
  simp only [generate_nim]
  by_cases h1 : pyUpper (pyStrip kp) = ""
  · simp [h1]
  · rw [if_neg h1]
    by_cases h2 : t < 2000 ∨ 9999 < t
    · simp [h2, h1]
    · rw [if_neg h2]
      cases hrow : rowFor db t (pyUpper (pyStrip kp)) <;> simp [h1, h2]

/-- C2: `generate_nim 2025 "TIF"` on an empty counter state returns exactly
`"2025TIF0001"`, and the immediately following allocation for the same key
returns `"2025TIF0002"`; in general a successful allocation returns the
4-digit year, then the program code, then the sequence zero-padded to at
least 4 digits. -/
theorem C2_format_exactness (t : Int) (kp : String) (db : List NIMCounter)
    (nim : String) (db' : List NIMCounter)
    (h : generate_nim t kp db = .ok (nim, db')) :
    generate_nim 2025 "TIF" [] = .ok ("2025TIF0001", [⟨2025, "TIF", 1⟩]) ∧
    generate_nim 2025 "TIF" [⟨2025, "TIF", 1⟩] = .ok ("2025TIF0002", [⟨2025, "TIF", 2⟩]) ∧
    nim = decRepr t.toNat ++ pyUpper (pyStrip kp) ++
      pad4 (curSeq db t (pyUpper (pyStrip kp)) + 1) ∧
    (decRepr t.toNat).length = 4 ∧
    4 ≤ (pad4 (curSeq db t (pyUpper (pyStrip kp)) + 1)).length := by
  obtain ⟨hk, h1, h2, hnim, hdb⟩ := generate_nim_ok t kp db nim db' h
  exact ⟨rfl, rfl, hnim, decRepr_year_length t h1 h2, pad4_length_ge _⟩

/-- Witness for C2 at year 2025, code `"TIF"`, empty counter state. -/
theorem C2_format_exactness_witness :
    generate_nim 2025 "TIF" [] = .ok ("2025TIF0001", [⟨2025, "TIF", 1⟩]) ∧
    generate_nim 2025 "TIF" [⟨2025, "TIF", 1⟩] = .ok ("2025TIF0002", [⟨2025, "TIF", 2⟩]) ∧
    "2025TIF0001" = decRepr (2025 : Int).toNat ++ pyUpper (pyStrip "TIF") ++
      pad4 (curSeq [] 2025 (pyUpper (pyStrip "TIF")) + 1) ∧
    (decRepr (2025 : Int).toNat).length = 4 ∧
    4 ≤ (pad4 (curSeq [] 2025 (pyUpper (pyStrip "TIF")) + 1)).length :=
  C2_format_exactness 2025 "TIF" [] "2025TIF0001" [⟨2025, "TIF", 1⟩] rfl

/-- C3: a successful `generate_nim` call bumps the sequence of its key by
exactly +1 (so `last_seq` is monotone), leaves every other key's row
untouched, creates a missing row lazily so the first allocation for a new
key yields sequence 1, and preserves uniqueness of the (year, code) keys. -/
theorem C3_counter_invariants (t : Int) (kp : String) (db : List NIMCounter)
    (nim : String) (db' : List NIMCounter)
    (h : generate_nim t kp db = .ok (nim, db')) :
    curSeq db' t (pyUpper (pyStrip kp)) = curSeq db t (pyUpper (pyStrip kp)) + 1 ∧
    (∀ t' k', ¬(t' = t ∧ k' = pyUpper (pyStrip kp)) →
      rowFor db' t' k' = rowFor db t' k') ∧
    (rowFor db t (pyUpper (pyStrip kp)) = none →
      rowFor db' t (pyUpper (pyStrip kp)) = some ⟨t, pyUpper (pyStrip kp), 1⟩) ∧
    ((keysOf db).Nodup → (keysOf db').Nodup) := by
  obtain ⟨hk, h1, h2, hnim, hdb⟩ := generate_nim_ok t kp db nim db' h
  cases hrow : rowFor db t (pyUpper (pyStrip kp)) with
  | none =>
    have hdb2 : db' = db ++ [⟨t, pyUpper (pyStrip kp), 1⟩] := by
      rw [hdb]
      unfold nextDb
      rw [hrow]
    subst hdb2
    refine ⟨?_, ?_, ?_, ?_⟩
    · unfold curSeq
      rw [hrow, rowFor_append_self db t (pyUpper (pyStrip kp))
        ⟨t, pyUpper (pyStrip kp), 1⟩ rfl rfl hrow]
    · intro t' k' hne
      exact rowFor_append_other db t t' (pyUpper (pyStrip kp)) k'
        ⟨t, pyUpper (pyStrip kp), 1⟩ rfl rfl hne
    · intro _
      exact rowFor_append_self db t (pyUpper (pyStrip kp))
        ⟨t, pyUpper (pyStrip kp), 1⟩ rfl rfl hrow
    · intro hnd
      exact keysOf_nodup_append db t (pyUpper (pyStrip kp)) hrow hnd
  | some c =>
    have hdb2 : db' = db.map (updRow t (pyUpper (pyStrip kp)) (c.last_seq + 1)) := by
      rw [hdb]
      unfold nextDb
      rw [hrow]
    subst hdb2
    refine ⟨?_, ?_, ?_, ?_⟩
    · unfold curSeq
      rw [hrow, rowFor_map_self db t (pyUpper (pyStrip kp)) (c.last_seq + 1), hrow,
        Option.map_some']
    · intro t' k' hne
      exact rowFor_map_other db t t' (pyUpper (pyStrip kp)) k' (c.last_seq + 1) hne
    · intro habs
      exact Option.noConfusion habs
    · intro hnd
      rw [keysOf_map_updRow]
      exact hnd

/-- Witness for C3: second allocation for (2025, TIF). -/
theorem C3_counter_invariants_witness :
    curSeq [⟨2025, "TIF", 2⟩] 2025 (pyUpper (pyStrip "TIF")) =
      curSeq [⟨2025, "TIF", 1⟩] 2025 (pyUpper (pyStrip "TIF")) + 1 ∧
    (∀ t' k', ¬(t' = 2025 ∧ k' = pyUpper (pyStrip "TIF")) →
      rowFor [⟨2025, "TIF", 2⟩] t' k' = rowFor [⟨2025, "TIF", 1⟩] t' k') ∧
    (rowFor [⟨2025, "TIF", 1⟩] 2025 (pyUpper (pyStrip "TIF")) = none →
      rowFor [⟨2025, "TIF", 2⟩] 2025 (pyUpper (pyStrip "TIF")) =
        some ⟨2025, pyUpper (pyStrip "TIF"), 1⟩) ∧
    ((keysOf [⟨2025, "TIF", 1⟩]).Nodup → (keysOf [⟨2025, "TIF", 2⟩]).Nodup) :=
  C3_counter_invariants 2025 "TIF" [⟨2025, "TIF", 1⟩] "2025TIF0002" [⟨2025, "TIF", 2⟩] rfl

/-- C9: `generate_nim` signals an error exactly for a year outside
[2000, 9999] or a program code that is empty after trimming; for accepted
inputs the code embedded in the NIM is the trimmed uppercased input. -/
theorem C9_input_validation (t : Int) (kp : String) (db : List NIMCounter) :
    ((∃ e, generate_nim t kp db = .error e) ↔
      (pyStrip kp = "" ∨ t < 2000 ∨ 9999 < t)) ∧
    ∀ nim db', generate_nim t kp db = .ok (nim, db') →
      nim = decRepr t.toNat ++ pyUpper (pyStrip kp) ++
        pad4 (curSeq db t (pyUpper (pyStrip kp)) + 1) := by
  constructor
  · rw [generate_nim_error_iff, pyUpper_eq_empty_iff]
  · intro nim db' h
    exact (generate_nim_ok t kp db nim db' h).2.2.2.1

/-- Witness for C9: success format at (2025, TIF) and rejection of a
whitespace-only program code. -/
theorem C9_input_validation_witness :
    "2025TIF0001" = decRepr (2025 : Int).toNat ++ pyUpper (pyStrip "TIF") ++
      pad4 (curSeq [] 2025 (pyUpper (pyStrip "TIF")) + 1) ∧
    (pyStrip "   " = "" ∨ (2025 : Int) < 2000 ∨ (9999 : Int) < 2025) :=
  ⟨(C9_input_validation 2025 "TIF" []).2 "2025TIF0001" [⟨2025, "TIF", 1⟩] rfl,
   (C9_input_validation 2025 "   " []).1.mp ⟨"kode_prodi must be a non-empty string", rfl⟩⟩

/-! ### Candidate model and the approval handlers -/

/-- The candidate status enum (`status_enum` in `src/models.py`). -/
inductive Status
  | pending
  | approved
  | rejected
deriving Repr, DecidableEq

/-- The fields of `CalonMahasiswa` (`src/models.py`) that the approval
flow reads or writes. `prodiKode` is the related `ProgramStudi.kode`
reached through the `calon.program_studi` relationship; `approvedAt` is
an abstract timestamp. -/
structure Candidate where
  id : Nat
  status : Status
  prodiKode : String
  nim : Option String
  approvedAt : Option Nat
deriving Repr, DecidableEq

/-- The candidate table (committed database state). -/
structure DB where
  candidates : List Candidate
deriving Repr, DecidableEq

/-- `db.query(CalonMahasiswa).filter(CalonMahasiswa.id == id).first()`. -/
def findCandidate (db : DB) (id : Nat) : Option Candidate :=
  db.candidates.find? (fun c => c.id == id)

/-- `db.query(CalonMahasiswa).filter(CalonMahasiswa.nim.like(pat)).count()`:
the number of rows whose non-null `nim` starts with the pattern's fixed
part (the pattern is always `prefix-℘` shaped: `f"{prefix}%"`). -/
def likeCount (db : DB) (pat : String) : Nat :=
  (db.candidates.filter (fun c => match c.nim with
    | some n => likeMatch pat n
    | none => false)).length

/-- Committing the approval update raises `IntegrityError` (unique index
on `nim`) exactly when a different row already carries the same string. -/
def nimTaken (db : DB) (selfId : Nat) (nim : String) : Bool :=
  db.candidates.any (fun c => c.id != selfId && c.nim == some nim)

/-- The committed effect of a successful approval: candidate `id` gets
the NIM, status `approved`, and the approval timestamp. -/
def commitApproval (db : DB) (id : Nat) (nim : String) (now : Nat) : DB :=
  ⟨db.candidates.map (fun c => if c.id == id then
    { c with nim := some nim, status := Status.approved, approvedAt := some now } else c)⟩

/-- Outcome of the bounded retry loop shared by the two handlers. -/
inductive AllocOutcome
  | allocated (nim : String)
  | exhausted
deriving Repr, DecidableEq

/-- The `for attempt in range(5)` retry loop, written identically in
`approve_mahasiswa` (`src/main.py`) and `approve` (`src/cli_register.py`):
attempt number `attempt` persists `pfx ++ pad4 (cnt + 1 + attempt)`
(`seq = existing_count + 1 + attempt`); an `IntegrityError` rolls the
transaction back leaving the committed state unchanged and moves to the
next attempt. `fuel` is the number of attempts left (initially 5). -/
def approveTry (db : DB) (id : Nat) (pfx : String) (cnt now : Nat) :
    Nat → Nat → AllocOutcome × DB
  | _, 0 => (.exhausted, db)
  | attempt, fuel + 1 =>
    let nim_candidate := pfx ++ pad4 (cnt + 1 + attempt)
    if nimTaken db id nim_candidate then
      approveTry db id pfx cnt now (attempt + 1) fuel
    else
      (.allocated nim_candidate, commitApproval db id nim_candidate now)

/-- Result of the HTTP handler `approve_mahasiswa` (`src/main.py`):
`notFound` is the 404, `ok` the JSON body `{"nim": calon.nim}`,
`invalidStatus` the 409 on a non-pending status, `exhausted` the 409
`"Could not generate unique NIM; please retry"`. -/
inductive ApproveResult
  | notFound
  | ok (nim : Option String)
  | invalidStatus (st : Status)
  | exhausted
deriving Repr, DecidableEq

/-- `approve_mahasiswa` from `src/main.py`, embedded. `year` stands for
`datetime.now(timezone.utc).year` and `now` for the commit timestamp,
passed as parameters since the embedding has no clock. -/
def approve_mahasiswa (db : DB) (id : Nat) (year : Nat) (now : Nat) :
    ApproveResult × DB :=
  match findCandidate db id with
  | none => (.notFound, db)
  | some calon =>
    if calon.status == Status.approved then (.ok calon.nim, db)
    else if calon.status != Status.pending then (.invalidStatus calon.status, db)
    else
      let kode := calon.prodiKode
      let pfx := decRepr year ++ kode
      let existing_count := likeCount db pfx
      match approveTry db id pfx existing_count now 0 5 with
      | (.allocated n, db') => (.ok (some n), db')
      | (.exhausted, db') => (.exhausted, db')

/-- Result of the CLI `approve` command (`src/cli_register.py`), mirroring
its exit paths: 11 (not found), 0 printing the stored NIM (already
approved), 12 (status not pending), 0 with the fresh NIM, 13 (five
failures). -/
inductive CliResult
  | notFound
  | alreadyApproved (nim : Option String)
  | invalidStatus (st : Status)
  | ok (nim : String)
  | exhausted
deriving Repr, DecidableEq

/-- `approve` from `src/cli_register.py`, embedded like
`approve_mahasiswa`. The only computational difference from the HTTP
handler is `kode = calon.program_studi.kode.upper()`. -/
def approve (db : DB) (id : Nat) (year : Nat) (now : Nat) : CliResult × DB :=
  match findCandidate db id with
  | none => (.notFound, db)
  | some calon =>
    if calon.status == Status.approved then (.alreadyApproved calon.nim, db)
    else if calon.status != Status.pending then (.invalidStatus calon.status, db)
    else
      let kode := pyUpper calon.prodiKode
      let pfx := decRepr year ++ kode
      let existing_count := likeCount db pfx
      match approveTry db id pfx existing_count now 0 5 with
      | (.allocated n, db') => (.ok n, db')
      | (.exhausted, db') => (.exhausted, db')

/-! ### Lemmas on the retry loop -/

lemma approveTry_step_taken (db : DB) (id : Nat) (pfx : String)
    (cnt now attempt fuel : Nat)
    (h : nimTaken db id (pfx ++ pad4 (cnt + 1 + attempt)) = true) :
    approveTry db id pfx cnt now attempt (fuel + 1) =
      approveTry db id pfx cnt now (attempt + 1) fuel := by
  rw [approveTry]
  simp only [h, if_true]

lemma approveTry_step_free (db : DB) (id : Nat) (pfx : String)
    (cnt now attempt fuel : Nat)
    (h : nimTaken db id (pfx ++ pad4 (cnt + 1 + attempt)) = false) :
    approveTry db id pfx cnt now attempt (fuel + 1) =
      (.allocated (pfx ++ pad4 (cnt + 1 + attempt)),
       commitApproval db id (pfx ++ pad4 (cnt + 1 + attempt)) now) := by
  rw [approveTry]
  simp only [h, if_false, Bool.false_eq_true]

lemma approveTry_exhausted (db : DB) (id : Nat) (pfx : String) (cnt now : Nat) :
    ∀ fuel attempt : Nat,
    (∀ i, i < fuel → nimTaken db id (pfx ++ pad4 (cnt + 1 + (attempt + i))) = true) →
    approveTry db id pfx cnt now attempt fuel = (.exhausted, db) := by
  intro fuel
  induction fuel with
  | zero => intro attempt _; rfl
  | succ f ih =>
    intro attempt hall
    have h0 : nimTaken db id (pfx ++ pad4 (cnt + 1 + attempt)) = true := by
      have := hall 0 (by omega)
      simpa using this
    rw [approveTry_step_taken db id pfx cnt now attempt f h0]
    apply ih
    intro i hi
    have := hall (i + 1) (by omega)
    have harith : attempt + (i + 1) = attempt + 1 + i := by omega
    rwa [harith] at this

/-! ### Claims about the approval handlers -/

/-- C4: for a candidate already `approved`, both the HTTP handler and the
CLI command are an idempotent no-op: they return the stored NIM, signal no
error, and leave the database (hence all candidate fields and every
counter) unchanged. -/
theorem C4_idempotent_approval (db : DB) (id year now : Nat) (c : Candidate)
    (hfind : findCandidate db id = some c) (happ : c.status = Status.approved) :
    approve_mahasiswa db id year now = (.ok c.nim, db) ∧
    approve db id year now = (.alreadyApproved c.nim, db) := by
  unfold approve_mahasiswa approve
  rw [hfind]
  simp [happ]

/-- Witness for C4: a stored approved candidate keeps its NIM. -/
theorem C4_idempotent_approval_witness :
    approve_mahasiswa ⟨[⟨1, Status.approved, "TIF", some "2025TIF0001", some 5⟩]⟩ 1 2025 9 =
      (.ok (some "2025TIF0001"), ⟨[⟨1, Status.approved, "TIF", some "2025TIF0001", some 5⟩]⟩) ∧
    approve ⟨[⟨1, Status.approved, "TIF", some "2025TIF0001", some 5⟩]⟩ 1 2025 9 =
      (.alreadyApproved (some "2025TIF0001"),
       ⟨[⟨1, Status.approved, "TIF", some "2025TIF0001", some 5⟩]⟩) :=
  C4_idempotent_approval ⟨[⟨1, Status.approved, "TIF", some "2025TIF0001", some 5⟩]⟩
    1 2025 9 ⟨1, Status.approved, "TIF", some "2025TIF0001", some 5⟩ rfl rfl

/-- C5: for a candidate whose status is neither `pending` nor `approved`
(i.e. `rejected`), both handlers fail with the invalid-transition error
and leave the database — in particular `nim`, `status`, `approvedAt` —
unchanged. -/
theorem C5_invalid_transition (db : DB) (id year now : Nat) (c : Candidate)
    (hfind : findCandidate db id = some c)
    (h1 : c.status ≠ Status.pending) (h2 : c.status ≠ Status.approved) :
    approve_mahasiswa db id year now = (.invalidStatus c.status, db) ∧
    approve db id year now = (.invalidStatus c.status, db) := by
  unfold approve_mahasiswa approve
  rw [hfind]
  simp [h1, h2]

/-- Witness for C5: a rejected candidate. -/
theorem C5_invalid_transition_witness :
    approve_mahasiswa ⟨[⟨1, Status.rejected, "TIF", none, none⟩]⟩ 1 2025 9 =
      (.invalidStatus Status.rejected, ⟨[⟨1, Status.rejected, "TIF", none, none⟩]⟩) ∧
    approve ⟨[⟨1, Status.rejected, "TIF", none, none⟩]⟩ 1 2025 9 =
      (.invalidStatus Status.rejected, ⟨[⟨1, Status.rejected, "TIF", none, none⟩]⟩) :=
  C5_invalid_transition ⟨[⟨1, Status.rejected, "TIF", none, none⟩]⟩ 1 2025 9
    ⟨1, Status.rejected, "TIF", none, none⟩ rfl (by decide) (by decide)

lemma approve_mahasiswa_pending (db : DB) (id year now : Nat) (c : Candidate)
    (hfind : findCandidate db id = some c) (hp : c.status = Status.pending) :
    approve_mahasiswa db id year now =
      (match approveTry db id (decRepr year ++ c.prodiKode)
          (likeCount db (decRepr year ++ c.prodiKode)) now 0 5 with
       | (.allocated n, db') => (.ok (some n), db')
       | (.exhausted, db') => (.exhausted, db')) := by
  unfold approve_mahasiswa
  rw [hfind]
  simp [hp]

lemma approve_pending (db : DB) (id year now : Nat) (c : Candidate)
    (hfind : findCandidate db id = some c) (hp : c.status = Status.pending) :
    approve db id year now =
      (match approveTry db id (decRepr year ++ pyUpper c.prodiKode)
          (likeCount db (decRepr year ++ pyUpper c.prodiKode)) now 0 5 with
       | (.allocated n, db') => (.ok n, db')
       | (.exhausted, db') => (.exhausted, db')) := by
  unfold approve
  rw [hfind]
  simp [hp]

/-- C6: when all five retry attempts hit a uniqueness violation, the HTTP
handler (and likewise the CLI command) reports the retryable exhaustion
failure and the committed database is exactly the pre-call state — the
candidate's `status`, `nim` and `approvedAt` are untouched. -/
theorem C6_allocation_exhausted (db : DB) (id year now : Nat) (c : Candidate)
    (hfind : findCandidate db id = some c) (hp : c.status = Status.pending)
    (hallHttp : ∀ i, i < 5 → nimTaken db id (decRepr year ++ c.prodiKode ++
      pad4 (likeCount db (decRepr year ++ c.prodiKode) + 1 + i)) = true)
    (hallCli : ∀ i, i < 5 → nimTaken db id (decRepr year ++ pyUpper c.prodiKode ++
      pad4 (likeCount db (decRepr year ++ pyUpper c.prodiKode) + 1 + i)) = true) :
    approve_mahasiswa db id year now = (.exhausted, db) ∧
    approve db id year now = (.exhausted, db) := by
  constructor
  · rw [approve_mahasiswa_pending db id year now c hfind hp]
    rw [approveTry_exhausted db id (decRepr year ++ c.prodiKode)
      (likeCount db (decRepr year ++ c.prodiKode)) now 5 0
      (by intro i hi; simpa using hallHttp i hi)]
  · rw [approve_pending db id year now c hfind hp]
    rw [approveTry_exhausted db id (decRepr year ++ pyUpper c.prodiKode)
      (likeCount db (decRepr year ++ pyUpper c.prodiKode)) now 5 0
      (by intro i hi; simpa using hallCli i hi)]

/-- Witness for C6: five stored NIMs `2025TIF0006` … `2025TIF0010` make the
prefix count 5, so the five attempted sequences 6…10 all collide. -/
theorem C6_allocation_exhausted_witness :
    approve_mahasiswa ⟨[⟨1, Status.pending, "TIF", none, none⟩,
      ⟨2, Status.approved, "TIF", some "2025TIF0006", some 0⟩,
      ⟨3, Status.approved, "TIF", some "2025TIF0007", some 0⟩,
      ⟨4, Status.approved, "TIF", some "2025TIF0008", some 0⟩,
      ⟨5, Status.approved, "TIF", some "2025TIF0009", some 0⟩,
      ⟨6, Status.approved, "TIF", some "2025TIF0010", some 0⟩]⟩ 1 2025 9 =
      (.exhausted, ⟨[⟨1, Status.pending, "TIF", none, none⟩,
        ⟨2, Status.approved, "TIF", some "2025TIF0006", some 0⟩,
        ⟨3, Status.approved, "TIF", some "2025TIF0007", some 0⟩,
        ⟨4, Status.approved, "TIF", some "2025TIF0008", some 0⟩,
        ⟨5, Status.approved, "TIF", some "2025TIF0009", some 0⟩,
        ⟨6, Status.approved, "TIF", some "2025TIF0010", some 0⟩]⟩) ∧
    approve ⟨[⟨1, Status.pending, "TIF", none, none⟩,
      ⟨2, Status.approved, "TIF", some "2025TIF0006", some 0⟩,
      ⟨3, Status.approved, "TIF", some "2025TIF0007", some 0⟩,
      ⟨4, Status.approved, "TIF", some "2025TIF0008", some 0⟩,
      ⟨5, Status.approved, "TIF", some "2025TIF0009", some 0⟩,
      ⟨6, Status.approved, "TIF", some "2025TIF0010", some 0⟩]⟩ 1 2025 9 =
      (.exhausted, ⟨[⟨1, Status.pending, "TIF", none, none⟩,
        ⟨2, Status.approved, "TIF", some "2025TIF0006", some 0⟩,
        ⟨3, Status.approved, "TIF", some "2025TIF0007", some 0⟩,
        ⟨4, Status.approved, "TIF", some "2025TIF0008", some 0⟩,
        ⟨5, Status.approved, "TIF", some "2025TIF0009", some 0⟩,
        ⟨6, Status.approved, "TIF", some "2025TIF0010", some 0⟩]⟩) :=
  C6_allocation_exhausted ⟨[⟨1, Status.pending, "TIF", none, none⟩,
      ⟨2, Status.approved, "TIF", some "2025TIF0006", some 0⟩,
      ⟨3, Status.approved, "TIF", some "2025TIF0007", some 0⟩,
      ⟨4, Status.approved, "TIF", some "2025TIF0008", some 0⟩,
      ⟨5, Status.approved, "TIF", some "2025TIF0009", some 0⟩,
      ⟨6, Status.approved, "TIF", some "2025TIF0010", some 0⟩]⟩ 1 2025 9
    ⟨1, Status.pending, "TIF", none, none⟩ rfl rfl (by decide) (by decide)

/-- Allocation with bounded retries as the specification words it (§4.2):
each attempt obtains a fresh sequence from the counter store
(`generate_nim`, the spec's `nextSequence`) and re-checks persistence
against the set of already-taken NIMs. Written only to compare the code's
retry policy against the spec's description of it. -/
def allocateSpecModel (year : Int) (kode : String) (taken : List String) :
    List NIMCounter → Nat → Option (String × List NIMCounter)
  | _, 0 => none
  | cs, n + 1 =>
    match generate_nim year kode cs with
    | .error _ => none
    | .ok (nim, cs') =>
      if taken.contains nim then allocateSpecModel year kode taken cs' n
      else some (nim, cs')

/-- C1 counterexample: with one prefix-matching NIM `"2025TIF0002"` already
present, the HTTP handler's first attempt conflicts, and its retry commits
`"2025TIF0003"` — `count + 1 + 1`, derived from the count computed before
the loop (no counter row is consulted or even exists) — whereas a retry
policy that called `nextSequence` afresh on each attempt would allocate
`"2025TIF0001"`. -/
theorem C1_counterexample :
    (approve_mahasiswa ⟨[⟨1, Status.pending, "TIF", none, none⟩,
        ⟨2, Status.approved, "TIF", some "2025TIF0002", some 0⟩]⟩ 1 2025 9).1 =
      ApproveResult.ok (some "2025TIF0003") ∧
    allocateSpecModel 2025 "TIF" ["2025TIF0002"] [] 5 =
      some ("2025TIF0001", [⟨2025, "TIF", 1⟩]) ∧
    ("2025TIF0003" : String) ≠ "2025TIF0001" :=
  ⟨rfl, rfl, by decide⟩

/-- C1 amended: on uniqueness violations the handler retries up to the
fixed bound of 5 attempts, but every attempt's sequence is derived from
the single count computed before the loop — the attempt with index `i`
persists `prefix ++ pad4 (count + 1 + i)` — and performs no fresh counter
increment. -/
theorem C1_count_derived_retries (db : DB) (id year now i : Nat) (c : Candidate)
    (hfind : findCandidate db id = some c) (hp : c.status = Status.pending)
    (hi : i < 5)
    (hprev : ∀ j, j < i → nimTaken db id (decRepr year ++ c.prodiKode ++
      pad4 (likeCount db (decRepr year ++ c.prodiKode) + 1 + j)) = true)
    (hfree : nimTaken db id (decRepr year ++ c.prodiKode ++
      pad4 (likeCount db (decRepr year ++ c.prodiKode) + 1 + i)) = false) :
    approve_mahasiswa db id year now =
      (.ok (some (decRepr year ++ c.prodiKode ++
         pad4 (likeCount db (decRepr year ++ c.prodiKode) + 1 + i))),
       commitApproval db id (decRepr year ++ c.prodiKode ++
         pad4 (likeCount db (decRepr year ++ c.prodiKode) + 1 + i)) now) := by
  rw [approve_mahasiswa_pending db id year now c hfind hp]
  interval_cases i
  · rw [approveTry_step_free db id _ _ now 0 4 hfree]
  · rw [approveTry_step_taken db id _ _ now 0 4 (hprev 0 (by omega)),
      approveTry_step_free db id _ _ now 1 3 hfree]
  · rw [approveTry_step_taken db id _ _ now 0 4 (hprev 0 (by omega)),
      approveTry_step_taken db id _ _ now 1 3 (hprev 1 (by omega)),
      approveTry_step_free db id _ _ now 2 2 hfree]
  · rw [approveTry_step_taken db id _ _ now 0 4 (hprev 0 (by omega)),
      approveTry_step_taken db id _ _ now 1 3 (hprev 1 (by omega)),
      approveTry_step_taken db id _ _ now 2 2 (hprev 2 (by omega)),
      approveTry_step_free db id _ _ now 3 1 hfree]
  · rw [approveTry_step_taken db id _ _ now 0 4 (hprev 0 (by omega)),
      approveTry_step_taken db id _ _ now 1 3 (hprev 1 (by omega)),
      approveTry_step_taken db id _ _ now 2 2 (hprev 2 (by omega)),
      approveTry_step_taken db id _ _ now 3 1 (hprev 3 (by omega)),
      approveTry_step_free db id _ _ now 4 0 hfree]

/-- Witness for the amended C1: first attempt collides with the stored
`"2025TIF0002"`, the retry commits `"2025TIF0003" = prefix ++ pad4 (1+1+1)`. -/
theorem C1_count_derived_retries_witness :
    approve_mahasiswa ⟨[⟨1, Status.pending, "TIF", none, none⟩,
        ⟨2, Status.approved, "TIF", some "2025TIF0002", some 0⟩]⟩ 1 2025 9 =
      (.ok (some (decRepr 2025 ++ ("TIF" : String) ++
         pad4 (likeCount ⟨[⟨1, Status.pending, "TIF", none, none⟩,
           ⟨2, Status.approved, "TIF", some "2025TIF0002", some 0⟩]⟩
           (decRepr 2025 ++ ("TIF" : String)) + 1 + 1))),
       commitApproval ⟨[⟨1, Status.pending, "TIF", none, none⟩,
           ⟨2, Status.approved, "TIF", some "2025TIF0002", some 0⟩]⟩ 1
         (decRepr 2025 ++ ("TIF" : String) ++
           pad4 (likeCount ⟨[⟨1, Status.pending, "TIF", none, none⟩,
             ⟨2, Status.approved, "TIF", some "2025TIF0002", some 0⟩]⟩
             (decRepr 2025 ++ ("TIF" : String)) + 1 + 1)) 9) :=
  C1_count_derived_retries ⟨[⟨1, Status.pending, "TIF", none, none⟩,
      ⟨2, Status.approved, "TIF", some "2025TIF0002", some 0⟩]⟩ 1 2025 9 1
    ⟨1, Status.pending, "TIF", none, none⟩ rfl rfl (by omega)
    (by decide) (by decide)

/-- The NIM a successful HTTP approval response carries, if any. -/
def httpNimOf : ApproveResult → Option String
  | .ok n => n
  | _ => none

/-- The NIM a successful CLI approval run reports, if any. -/
def cliNimOf : CliResult → Option String
  | .alreadyApproved n => n
  | .ok n => some n
  | _ => none

/-- C10 counterexample: for a pending candidate whose stored program code
is lowercase `"tif"`, the HTTP handler builds its candidates from the raw
code and commits `"2025tif0001"`, while the CLI uppercases the code and
commits `"2025TIF0001"` — already the first-attempt candidate strings
differ. -/
theorem C10_counterexample :
    (approve_mahasiswa ⟨[⟨1, Status.pending, "tif", none, none⟩]⟩ 1 2025 9).1 =
      ApproveResult.ok (some "2025tif0001") ∧
    (approve ⟨[⟨1, Status.pending, "tif", none, none⟩]⟩ 1 2025 9).1 =
      CliResult.ok "2025TIF0001" ∧
    ("2025tif0001" : String) ≠ "2025TIF0001" :=
  ⟨rfl, rfl, by decide⟩

/-- C10 amended: for a pending candidate whose stored program code is
unchanged by uppercasing (no lowercase letters), the HTTP handler and the
CLI command run the identical count-plus-attempt computation: they commit
the same database state and report the same NIM (or both exhaust). With a
lowercase code they differ, since only the CLI uppercases it. -/
theorem C10_handlers_agree_on_upper_code (db : DB) (id year now : Nat) (c : Candidate)
    (hfind : findCandidate db id = some c) (hp : c.status = Status.pending)
    (hk : pyUpper c.prodiKode = c.prodiKode) :
    (approve db id year now).2 = (approve_mahasiswa db id year now).2 ∧
    cliNimOf (approve db id year now).1 = httpNimOf (approve_mahasiswa db id year now).1 := by
  rw [approve_mahasiswa_pending db id year now c hfind hp,
    approve_pending db id year now c hfind hp, hk]
  rcases hres : approveTry db id (decRepr year ++ c.prodiKode)
      (likeCount db (decRepr year ++ c.prodiKode)) now 0 5 with ⟨out, db2⟩
  cases out <;> simp [httpNimOf, cliNimOf]

/-- Witness for the amended C10 at an uppercase stored code. -/
theorem C10_handlers_agree_on_upper_code_witness :
    (approve ⟨[⟨1, Status.pending, "TIF", none, none⟩]⟩ 1 2025 9).2 =
      (approve_mahasiswa ⟨[⟨1, Status.pending, "TIF", none, none⟩]⟩ 1 2025 9).2 ∧
    cliNimOf (approve ⟨[⟨1, Status.pending, "TIF", none, none⟩]⟩ 1 2025 9).1 =
      httpNimOf (approve_mahasiswa ⟨[⟨1, Status.pending, "TIF", none, none⟩]⟩ 1 2025 9).1 :=
  C10_handlers_agree_on_upper_code ⟨[⟨1, Status.pending, "TIF", none, none⟩]⟩ 1 2025 9
    ⟨1, Status.pending, "TIF", none, none⟩ rfl rfl rfl

/-- C8: for every sequence above 9999 the formatter emits the full decimal
representation — 5 or more digits, no truncation or wrap-around — while
zero-padding to width 4 applies exactly to sequences below 10000. -/
theorem C8_no_truncation (n : Nat) :
    (9999 < n → pad4 n = decRepr n ∧ 5 ≤ (pad4 n).length) ∧
    (n ≤ 9999 → (pad4 n).length = 4 ∧
      (pad4 n).data = List.replicate (4 - (decRepr n).length) '0' ++ (decRepr n).data) := by
  constructor
  · intro h
    refine ⟨pad4_big n h, ?_⟩
    rw [pad4_big n h]
    have hgt : 4 < (decRepr n).length := by
      apply decRepr_length_gt 4
      have hp : (10 : Nat) ^ 4 = 10000 := by norm_num
      omega
    omega
  · intro h
    exact ⟨pad4_length n h, pad4_data n⟩

/-- Witness for C8 at sequences 12345 (wide) and 123 (padded). -/
theorem C8_no_truncation_witness :
    (pad4 12345 = decRepr 12345 ∧ 5 ≤ (pad4 12345).length) ∧
    ((pad4 123).length = 4 ∧
      (pad4 123).data = List.replicate (4 - (decRepr 123).length) '0' ++ (decRepr 123).data) :=
  ⟨(C8_no_truncation 12345).1 (by omega), (C8_no_truncation 123).2 (by omega)⟩

/-! ### Serialized allocation traces (concurrency claim C7) -/

/-- One allocation request. The `with_for_update` row lock in
`generate_nim` serializes concurrent callers on the counter row, so a
concurrent history of the counter store is modelled as a sequence of
atomic calls. -/
structure AllocCall where
  year : Int
  kode : String
deriving Repr, DecidableEq

/-- Run a list of allocation calls against the counter store. Calls with
invalid inputs raise and produce no NIM; the rest return theirs in
order. -/
def runAllocs (cs : List NIMCounter) : List AllocCall → List String × List NIMCounter
  | [] => ([], cs)
  | a :: rest =>
    match generate_nim a.year a.kode cs with
    | .error _ => runAllocs cs rest
    | .ok (nim, cs') =>
      let r := runAllocs cs' rest
      (nim :: r.1, r.2)

/-- C7 counterexample: two successful allocations for the distinct keys
(2025, "A") and (2025, "A1") both produce the string `"2025A12345"` —
once the 4-digit padding overflows, program codes of different lengths
make the produced NIM strings collide across keys. -/
theorem C7_counterexample :
    (runAllocs [⟨2025, "A", 12344⟩, ⟨2025, "A1", 2344⟩] [⟨2025, "A"⟩, ⟨2025, "A1"⟩]).1 =
      ["2025A12345", "2025A12345"] ∧
    ¬ (runAllocs [⟨2025, "A", 12344⟩, ⟨2025, "A1", 2344⟩]
        [⟨2025, "A"⟩, ⟨2025, "A1"⟩]).1.Pairwise (fun a b => a ≠ b) := by
  refine ⟨rfl, ?_⟩
  intro hpw
  have hpw' : (["2025A12345", "2025A12345"] : List String).Pairwise (fun a b => a ≠ b) := hpw
  match hpw' with
  | .cons h _ => exact h "2025A12345" (by simp) rfl

lemma append_data (a b : String) : (a ++ b).data = a.data ++ b.data := by
  cases a
  cases b
  rfl

lemma generate_nim_isOk (t : Int) (kp : String) (cs : List NIMCounter)
    (h1 : pyUpper (pyStrip kp) ≠ "") (h2 : 2000 ≤ t) (h3 : t ≤ 9999) :
    ∃ nim cs', generate_nim t kp cs = .ok (nim, cs') := by
  simp only [generate_nim, if_neg h1, if_neg (by omega : ¬(t < 2000 ∨ 9999 < t))]
  cases rowFor cs t (pyUpper (pyStrip kp)) with
  | none => exact ⟨_, _, rfl⟩
  | some c => exact ⟨_, _, rfl⟩

lemma nextDb_curSeq_self (t : Int) (k : String) (db : List NIMCounter) :
    curSeq (nextDb t k db) t k = curSeq db t k + 1 := by
  cases hrow : rowFor db t k with
  | none =>
    have hdb : nextDb t k db = db ++ [⟨t, k, 1⟩] := by
      unfold nextDb
      rw [hrow]
    rw [hdb]
    unfold curSeq
    rw [hrow, rowFor_append_self db t k ⟨t, k, 1⟩ rfl rfl hrow]
  | some c =>
    have hdb : nextDb t k db = db.map (updRow t k (c.last_seq + 1)) := by
      unfold nextDb
      rw [hrow]
    rw [hdb]
    unfold curSeq
    rw [rowFor_map_self db t k (c.last_seq + 1), hrow, Option.map_some']

lemma nextDb_curSeq_other (t t' : Int) (k k' : String) (db : List NIMCounter)
    (hne : ¬(t' = t ∧ k' = k)) :
    curSeq (nextDb t k db) t' k' = curSeq db t' k' := by
  cases hrow : rowFor db t k with
  | none =>
    have hdb : nextDb t k db = db ++ [⟨t, k, 1⟩] := by
      unfold nextDb
      rw [hrow]
    rw [hdb]
    unfold curSeq
    rw [rowFor_append_other db t t' k k' ⟨t, k, 1⟩ rfl rfl hne]
  | some c =>
    have hdb : nextDb t k db = db.map (updRow t k (c.last_seq + 1)) := by
      unfold nextDb
      rw [hrow]
    rw [hdb]
    unfold curSeq
    rw [rowFor_map_other db t t' k k' (c.last_seq + 1) hne]

lemma nim_format_inj (y1 y2 : Int) (k1 k2 : String) (s1 s2 : Nat)
    (hy1a : 2000 ≤ y1) (hy1b : y1 ≤ 9999) (hy2a : 2000 ≤ y2) (hy2b : y2 ≤ 9999)
    (hlen : k1.length = k2.length)
    (heq : decRepr y1.toNat ++ k1 ++ pad4 s1 = decRepr y2.toNat ++ k2 ++ pad4 s2) :
    y1 = y2 ∧ k1 = k2 ∧ s1 = s2 := by
  have hdata : ((decRepr y1.toNat).data ++ k1.data) ++ (pad4 s1).data =
      ((decRepr y2.toNat).data ++ k2.data) ++ (pad4 s2).data := by
    have h := congrArg String.data heq
    rwa [append_data, append_data, append_data, append_data] at h
  have hl1 : (decRepr y1.toNat).data.length = 4 := decRepr_year_length y1 hy1a hy1b
  have hl2 : (decRepr y2.toNat).data.length = 4 := decRepr_year_length y2 hy2a hy2b
  have hk12 : k1.data.length = k2.data.length := hlen
  have hfront : (decRepr y1.toNat).data ++ k1.data = (decRepr y2.toNat).data ++ k2.data ∧
      (pad4 s1).data = (pad4 s2).data := by
    apply List.append_inj hdata
    rw [List.length_append, List.length_append]
    omega
  have hy : (decRepr y1.toNat).data = (decRepr y2.toNat).data ∧ k1.data = k2.data :=
    List.append_inj hfront.1 (by omega)
  refine ⟨?_, String.ext hy.2, pad4_inj s1 s2 (String.ext hfront.2)⟩
  have := decRepr_inj y1.toNat y2.toNat (String.ext hy.1)
  omega

lemma runAllocs_fresh (L : Nat) :
    ∀ (calls : List AllocCall) (cs : List NIMCounter),
    (∀ a ∈ calls, 2000 ≤ a.year ∧ a.year ≤ 9999 ∧ pyUpper (pyStrip a.kode) ≠ "") →
    (∀ a ∈ calls, (pyUpper (pyStrip a.kode)).length = L) →
    ∀ (y : Int) (k : String) (s : Nat), 2000 ≤ y → y ≤ 9999 → k.length = L →
    s ≤ curSeq cs y k →
    decRepr y.toNat ++ k ++ pad4 s ∉ (runAllocs cs calls).1 := by
  intro calls
  induction calls with
  | nil =>
    intro cs _ _ y k s _ _ _ _
    simp [runAllocs]
  | cons a rest ih =>
    intro cs hvalid hlen y k s hy1 hy2 hk hs
    obtain ⟨ha1, ha2, ha3⟩ := hvalid a (by simp)
    obtain ⟨nim, cs', hok⟩ := generate_nim_isOk a.year a.kode cs ha3 ha1 ha2
    obtain ⟨_, _, _, hnim, hcs'⟩ := generate_nim_ok a.year a.kode cs nim cs' hok
    have hvalid' : ∀ b ∈ rest, 2000 ≤ b.year ∧ b.year ≤ 9999 ∧
        pyUpper (pyStrip b.kode) ≠ "" := fun b hb => hvalid b (by simp [hb])
    have hlen' : ∀ b ∈ rest, (pyUpper (pyStrip b.kode)).length = L :=
      fun b hb => hlen b (by simp [hb])
    have hrun : runAllocs cs (a :: rest) =
        (nim :: (runAllocs cs' rest).1, (runAllocs cs' rest).2) := by
      simp only [runAllocs]
      rw [hok]
    rw [hrun]
    intro hmem
    rcases List.mem_cons.mp hmem with hhead | htail
    · rw [hnim] at hhead
      obtain ⟨hyy, hkk, hss⟩ := nim_format_inj y a.year k (pyUpper (pyStrip a.kode))
        s (curSeq cs a.year (pyUpper (pyStrip a.kode)) + 1) hy1 hy2 ha1 ha2
        (by rw [hk, hlen a (by simp)]) hhead
      rw [hyy, hkk] at hs
      omega
    · have hcur : curSeq cs y k ≤ curSeq cs' y k := by
        rw [hcs']
        by_cases hkey : y = a.year ∧ k = pyUpper (pyStrip a.kode)
        · rw [hkey.1, hkey.2, nextDb_curSeq_self]
          omega
        · rw [nextDb_curSeq_other a.year y (pyUpper (pyStrip a.kode)) k cs hkey]
      exact ih cs' hvalid' hlen' y k s hy1 hy2 hk (by omega) htail

lemma runAllocs_pairwise (L : Nat) :
    ∀ (calls : List AllocCall) (cs : List NIMCounter),
    (∀ a ∈ calls, 2000 ≤ a.year ∧ a.year ≤ 9999 ∧ pyUpper (pyStrip a.kode) ≠ "") →
    (∀ a ∈ calls, (pyUpper (pyStrip a.kode)).length = L) →
    (runAllocs cs calls).1.Pairwise (fun x y => x ≠ y) := by
  intro calls
  induction calls with
  | nil =>
    intro cs _ _
    simp [runAllocs]
  | cons a rest ih =>
    intro cs hvalid hlen
    obtain ⟨ha1, ha2, ha3⟩ := hvalid a (by simp)
    obtain ⟨nim, cs', hok⟩ := generate_nim_isOk a.year a.kode cs ha3 ha1 ha2
    obtain ⟨_, _, _, hnim, hcs'⟩ := generate_nim_ok a.year a.kode cs nim cs' hok
    have hvalid' : ∀ b ∈ rest, 2000 ≤ b.year ∧ b.year ≤ 9999 ∧
        pyUpper (pyStrip b.kode) ≠ "" := fun b hb => hvalid b (by simp [hb])
    have hlen' : ∀ b ∈ rest, (pyUpper (pyStrip b.kode)).length = L :=
      fun b hb => hlen b (by simp [hb])
    have hrun : runAllocs cs (a :: rest) =
        (nim :: (runAllocs cs' rest).1, (runAllocs cs' rest).2) := by
      simp only [runAllocs]
      rw [hok]
    rw [hrun]
    have hs : curSeq cs a.year (pyUpper (pyStrip a.kode)) + 1 ≤
        curSeq cs' a.year (pyUpper (pyStrip a.kode)) := by
      rw [hcs', nextDb_curSeq_self]
    have hfresh := runAllocs_fresh L rest cs' hvalid' hlen' a.year
      (pyUpper (pyStrip a.kode)) (curSeq cs a.year (pyUpper (pyStrip a.kode)) + 1)
      ha1 ha2 (hlen a (by simp)) hs
    refine List.Pairwise.cons ?_ (ih cs' hvalid' hlen')
    intro b hb heqb
    apply hfresh
    rw [← hnim, heqb]
    exact hb

lemma runAllocs_curSeq :
    ∀ (calls : List AllocCall) (cs : List NIMCounter),
    (∀ a ∈ calls, 2000 ≤ a.year ∧ a.year ≤ 9999 ∧ pyUpper (pyStrip a.kode) ≠ "") →
    ∀ (y : Int) (k : String),
    curSeq (runAllocs cs calls).2 y k = curSeq cs y k +
      (calls.filter (fun a => a.year == y && pyUpper (pyStrip a.kode) == k)).length := by
  intro calls
  induction calls with
  | nil =>
    intro cs _ y k
    simp [runAllocs]
  | cons a rest ih =>
    intro cs hvalid y k
    obtain ⟨ha1, ha2, ha3⟩ := hvalid a (by simp)
    obtain ⟨nim, cs', hok⟩ := generate_nim_isOk a.year a.kode cs ha3 ha1 ha2
    obtain ⟨_, _, _, hnim, hcs'⟩ := generate_nim_ok a.year a.kode cs nim cs' hok
    have hvalid' : ∀ b ∈ rest, 2000 ≤ b.year ∧ b.year ≤ 9999 ∧
        pyUpper (pyStrip b.kode) ≠ "" := fun b hb => hvalid b (by simp [hb])
    have hrun : runAllocs cs (a :: rest) =
        (nim :: (runAllocs cs' rest).1, (runAllocs cs' rest).2) := by
      simp only [runAllocs]
      rw [hok]
    rw [hrun]
    show curSeq (runAllocs cs' rest).2 y k = _
    rw [ih cs' hvalid' y k]
    by_cases hkey : (a.year == y && pyUpper (pyStrip a.kode) == k) = true
    · have hfc : List.filter (fun b => b.year == y && pyUpper (pyStrip b.kode) == k)
          (a :: rest) =
          a :: List.filter (fun b => b.year == y && pyUpper (pyStrip b.kode) == k) rest :=
        List.filter_cons_of_pos hkey
      rw [hfc, List.length_cons]
      have hky : a.year = y ∧ pyUpper (pyStrip a.kode) = k := by
        simpa only [Bool.and_eq_true, beq_iff_eq] using hkey
      rw [hcs', ← hky.1, ← hky.2, nextDb_curSeq_self]
      omega
    · have hfc : List.filter (fun b => b.year == y && pyUpper (pyStrip b.kode) == k)
          (a :: rest) =
          List.filter (fun b => b.year == y && pyUpper (pyStrip b.kode) == k) rest :=
        List.filter_cons_of_neg (by simpa using hkey)
      rw [hfc]
      have hkey' : ¬(y = a.year ∧ k = pyUpper (pyStrip a.kode)) := by
        intro hc
        apply hkey
        simp [hc.1.symm, hc.2.symm]
      rw [hcs', nextDb_curSeq_other a.year y (pyUpper (pyStrip a.kode)) k cs hkey']

/-- C7 amended: modelling the `with_for_update` row lock as serialized
execution, any trace of valid allocation calls whose normalized program
codes share one common length produces pairwise distinct NIM strings, and
each key's counter advances by exactly the number of calls for that key —
every call for a key receives a distinct, consecutive sequence number.
(Without the common-length restriction, distinct keys can collide once a
sequence exceeds 9999, as the counterexample shows.) -/
theorem C7_serialized_uniqueness (cs : List NIMCounter) (calls : List AllocCall) (L : Nat)
    (hvalid : ∀ a ∈ calls, 2000 ≤ a.year ∧ a.year ≤ 9999 ∧ pyUpper (pyStrip a.kode) ≠ "")
    (hlen : ∀ a ∈ calls, (pyUpper (pyStrip a.kode)).length = L) :
    (runAllocs cs calls).1.Pairwise (fun x y => x ≠ y) ∧
    ∀ (y : Int) (k : String),
      curSeq (runAllocs cs calls).2 y k = curSeq cs y k +
        (calls.filter (fun a => a.year == y && pyUpper (pyStrip a.kode) == k)).length :=
  ⟨runAllocs_pairwise L calls cs hvalid hlen, runAllocs_curSeq calls cs hvalid⟩

/-- Witness for the amended C7: three allocations, two for (2025, TIF) and
one for (2024, SIB), from the empty counter state. -/
theorem C7_serialized_uniqueness_witness :
    (runAllocs [] [⟨2025, "TIF"⟩, ⟨2025, "TIF"⟩, ⟨2024, "SIB"⟩]).1.Pairwise
      (fun x y => x ≠ y) ∧
    ∀ (y : Int) (k : String),
      curSeq (runAllocs [] [⟨2025, "TIF"⟩, ⟨2025, "TIF"⟩, ⟨2024, "SIB"⟩]).2 y k =
        curSeq [] y k + (([⟨2025, "TIF"⟩, ⟨2025, "TIF"⟩, ⟨2024, "SIB"⟩] :
          List AllocCall).filter
          (fun a => a.year == y && pyUpper (pyStrip a.kode) == k)).length :=
  C7_serialized_uniqueness [] [⟨2025, "TIF"⟩, ⟨2025, "TIF"⟩, ⟨2024, "SIB"⟩] 3
    (by decide) (by decide)

end PMB
